import Mathlib

/- Verification of the sandboxed arithmetic evaluator of `app/main.py`
(class `SafeEvaluator`, lines 29-135).  The evaluator pipeline is
`evaluate : String -> number or error` = glyph sanitizer (lines 70-74),
Python expression parser in `eval` mode (line 76), and the recursive
walk `_eval` (lines 81-135) over the parsed tree, consulting the fixed
registry `allowed_names` (lines 53-66).

Modelling conventions.
Python numbers are embedded as `Val`: `int` carries a mathematical
integer (Python ints are unbounded), `float` carries an exact rational
(every IEEE-754 double is a rational; bit-level rounding of inexact
operations is outside this embedding, and the transcendental library
functions are represented by stated rational approximations — no claim
depends on an inexact value), `bool` mirrors Python's `bool`, which is
an `int` subclass, and `builtin` denotes a function object stored in
the registry.  Exceptions escaping `SafeEvaluator.evaluate` are
embedded as `EvalErr`, one constructor per Python exception class that
the code can produce.  Rational arithmetic is written with
`Rat.divInt` cross-multiplication forms (kernel-computable) and proved
equal to the field operations of `ℚ` by the `q*_eq` bridge lemmas. -/

/-- The Python exception classes that `SafeEvaluator` code paths can raise:
`ValueError msg` for the explicit `raise ValueError(...)` sites of
`main.py` and for `math` domain errors; `ZeroDivisionError` from `/`,
`//`, `%` and `**` with a zero operand; `TypeError` from calling a
non-callable registry constant, arity mismatches and operations on
function objects; `SyntaxError` as raised by the parser (line 77 catches
it, so it can never escape `evaluate` — proved below). -/
inductive EvalErr where
  | ValueError (msg : String)
  | ZeroDivisionError
  | TypeError
  | SyntaxError
deriving DecidableEq, Repr

/-- Python runtime values reachable inside `_eval`: unbounded integers,
floats (as exact rationals), booleans (an `int` subclass in Python), and
registry function objects (reachable because `_eval`'s `ast.Name` branch,
lines 130-133, returns `allowed_names[id]` unconditionally). -/
inductive Val where
  | int (n : ℤ)
  | float (q : ℚ)
  | bool (b : Bool)
  | builtin (id : String)
deriving DecidableEq, Repr

/-- Python's integer view of a value: ints are themselves, `True`/`False`
are `1`/`0` (bool is an int subclass), floats and function objects are
not integers. -/
def Val.intLike? : Val → Option ℤ
  | .int n => some n
  | .bool b => some (if b then 1 else 0)
  | _ => none

/-- Python's numeric view of a value: the exact rational it denotes, or
`none` for a function object. -/
def Val.toRat? : Val → Option ℚ
  | .int n => some (n : ℚ)
  | .float q => some q
  | .bool b => some (if b then 1 else 0)
  | .builtin _ => none

/-- Whether the value is a number (int, float or bool). -/
def Val.isNumeric (v : Val) : Bool := v.toRat?.isSome

/-- Kernel-computable rational addition (the `+` of `ℚ` is
`@[irreducible]`); proved equal to `+` in `qAdd_eq`. -/
def qAdd (a b : ℚ) : ℚ := Rat.divInt (a.num * b.den + b.num * a.den) (a.den * b.den)

/-- Kernel-computable rational subtraction; proved equal to `-` in `qSub_eq`. -/
def qSub (a b : ℚ) : ℚ := Rat.divInt (a.num * b.den - b.num * a.den) (a.den * b.den)

/-- Kernel-computable rational multiplication; proved equal to `*` in `qMul_eq`. -/
def qMul (a b : ℚ) : ℚ := Rat.divInt (a.num * b.num) (a.den * b.den)

/-- Kernel-computable rational division; proved equal to `/` in `qDiv_eq`. -/
def qDiv (a b : ℚ) : ℚ := Rat.divInt (a.num * b.den) (a.den * b.num)

/-- Kernel-computable rational negation; proved equal to `-·` in `qNeg_eq`. -/
def qNeg (a : ℚ) : ℚ := Rat.divInt (-a.num) a.den

/-- Kernel-computable absolute value, as Python's `abs` on a float;
proved equal to `|·|` in `qAbs_eq`. -/
def qAbs (a : ℚ) : ℚ := if a.num < 0 then qNeg a else a

/-- Kernel-computable floor; proved equal to `⌊·⌋` in `qFloor_eq`. -/
def qFloor (a : ℚ) : ℤ := Rat.floor a

/-- Kernel-computable natural power of a rational. -/
def qNpow (a : ℚ) : ℕ → ℚ
  | 0 => 1
  | n + 1 => qMul (qNpow a n) a

/-- Kernel-computable integer power of a rational (Python `x ** n` for an
integer-valued exponent; the `n < 0` case is Python's exact reciprocal,
defined for nonzero base — callers check the base). -/
def qZpow (a : ℚ) (z : ℤ) : ℚ :=
  if 0 ≤ z then qNpow a z.toNat else qDiv 1 (qNpow a (-z).toNat)

theorem qAdd_eq (a b : ℚ) : qAdd a b = a + b := by
  rw [qAdd]
  conv_rhs => rw [← Rat.num_divInt_den a, ← Rat.num_divInt_den b]
  rw [Rat.divInt_add_divInt _ _ (by exact_mod_cast a.den_nz) (by exact_mod_cast b.den_nz)]

theorem qMul_eq (a b : ℚ) : qMul a b = a * b := by
  rw [qMul]
  conv_rhs => rw [← Rat.num_divInt_den a, ← Rat.num_divInt_den b]
  rw [Rat.divInt_mul_divInt']

theorem qNeg_eq (a : ℚ) : qNeg a = -a := by
  rw [qNeg]
  conv_rhs => rw [← Rat.num_divInt_den a]
  rw [Rat.neg_divInt]

theorem qSub_eq (a b : ℚ) : qSub a b = a - b := by
  have h : a - b = a + (-b) := by ring
  have h2 := qAdd_eq a (-b)
  rw [qAdd, Rat.neg_num, Rat.neg_den] at h2
  rw [h, ← h2, qSub]
  congr 1
  ring

theorem qDiv_eq (a b : ℚ) : qDiv a b = a / b := by
  rw [qDiv]
  conv_rhs => rw [← Rat.num_divInt_den a, ← Rat.num_divInt_den b]
  rw [Rat.divInt_div_divInt]

theorem qAbs_eq (a : ℚ) : qAbs a = |a| := by
  rw [qAbs]
  by_cases h : a.num < 0
  · rw [if_pos h, qNeg_eq, abs_of_neg]
    exact Rat.num_neg.mp h
  · rw [if_neg h, abs_of_nonneg]
    have := Rat.num_nonneg (q := a)
    exact this.mp (le_of_not_lt h)

theorem qFloor_eq (a : ℚ) : qFloor a = ⌊a⌋ := by
  rw [qFloor, Rat.floor_def', Rat.floor_def]

theorem qNpow_eq (a : ℚ) (n : ℕ) : qNpow a n = a ^ n := by
  induction n with
  | zero => rw [qNpow, pow_zero]
  | succ k ih => rw [qNpow, qMul_eq, ih, pow_succ]

/-- Binary search for the largest `r` with `r ^ d ≤ n` (fuel-driven so the
kernel can evaluate it; 600 steps cover every bound below `2 ^ 599`). -/
def introotGo (d n : ℕ) : ℕ → ℕ → ℕ → ℕ
  | 0, lo, _ => lo
  | fuel + 1, lo, hi =>
    if hi ≤ lo + 1 then lo
    else
      let mid := (lo + hi) / 2
      if mid ^ d ≤ n then introotGo d n fuel mid hi else introotGo d n fuel lo mid

/-- Largest natural `r` with `r ^ d ≤ n`. -/
def introot (d n : ℕ) : ℕ := introotGo d n 600 0 (n + 2)

/-- Modelled from the spec: the value of a real `d`-th root as the source's
IEEE-754 library would approximate it.  We return the root truncated to 12
decimal digits (exact whenever the true root has at most 12 fractional
digits, e.g. on perfect squares, which is all any claim evaluates). -/
def qRootApprox (d : ℕ) (x : ℚ) : ℚ :=
  Rat.divInt (introot d (qFloor (qMul x ((10 : ℚ) ^ (12 * d)))).toNat) ((10 : ℕ) ^ 12)

/-- Modelled from the spec: `math.log`'s real-valued natural logarithm,
represented by a truncated artanh series (`ln x = 2 * Σ t^(2k+1)/(2k+1)`,
`t = (x-1)/(x+1)`).  No claim depends on an inexact logarithm value; only
the domain checks of `logFn`/`log10Fn` matter to the claims. -/
def lnApprox (x : ℚ) : ℚ :=
  let t := qDiv (qSub x 1) (qAdd x 1)
  qMul 2 ((List.range 48).foldl
    (fun acc k => qAdd acc (qDiv (qNpow t (2 * k + 1)) ((2 * k + 1 : ℕ) : ℚ))) 0)

/-- Modelled from the spec: `math.sin`, represented by its truncated Taylor
series; no claim depends on its value, only on arity and totality. -/
def sinApprox (x : ℚ) : ℚ :=
  (List.range 10).foldl
    (fun acc k =>
      qAdd acc (qMul (qNpow (-1 : ℚ) k)
        (qDiv (qNpow x (2 * k + 1)) ((Nat.factorial (2 * k + 1) : ℕ) : ℚ)))) 0

/-- Modelled from the spec: `math.cos`, represented by its truncated Taylor
series; no claim depends on its value, only on arity and totality. -/
def cosApprox (x : ℚ) : ℚ :=
  (List.range 10).foldl
    (fun acc k =>
      qAdd acc (qMul (qNpow (-1 : ℚ) k)
        (qDiv (qNpow x (2 * k)) ((Nat.factorial (2 * k) : ℕ) : ℚ)))) 0

/-- Modelled from the spec: `math.tan` as `sin/cos` on the approximations. -/
def tanApprox (x : ℚ) : ℚ := qDiv (sinApprox x) (cosApprox x)

/-- Python `+` on the values `_eval` can produce (line 105 `left + right`):
int-like operands give an int, numeric operands give a float, and a
function-object operand raises `TypeError`. -/
def pyAdd (l r : Val) : Except EvalErr Val :=
  match l.intLike?, r.intLike? with
  | some a, some b => .ok (.int (a + b))
  | _, _ =>
    match l.toRat?, r.toRat? with
    | some x, some y => .ok (.float (qAdd x y))
    | _, _ => .error .TypeError

/-- Python `-` (line 107 `left - right`). -/
def pySub (l r : Val) : Except EvalErr Val :=
  match l.intLike?, r.intLike? with
  | some a, some b => .ok (.int (a - b))
  | _, _ =>
    match l.toRat?, r.toRat? with
    | some x, some y => .ok (.float (qSub x y))
    | _, _ => .error .TypeError

/-- Python `*` (line 109 `left * right`). -/
def pyMul (l r : Val) : Except EvalErr Val :=
  match l.intLike?, r.intLike? with
  | some a, some b => .ok (.int (a * b))
  | _, _ =>
    match l.toRat?, r.toRat? with
    | some x, some y => .ok (.float (qMul x y))
    | _, _ => .error .TypeError

/-- Python `/` (line 111 `left / right`): true division always yields a
float and raises `ZeroDivisionError` when the right operand equals zero. -/
def pyDiv (l r : Val) : Except EvalErr Val :=
  match l.toRat?, r.toRat? with
  | some x, some y =>
    if y = 0 then .error .ZeroDivisionError else .ok (.float (qDiv x y))
  | _, _ => .error .TypeError

/-- Python `//` (line 113 `left // right`): the floor (toward negative
infinity, per the Python language reference) of the exact quotient; an int
for int-like operands, a float otherwise; `ZeroDivisionError` on zero. -/
def pyFloorDiv (l r : Val) : Except EvalErr Val :=
  match l.intLike?, r.intLike? with
  | some a, some b =>
    if b = 0 then .error .ZeroDivisionError
    else .ok (.int (qFloor (qDiv (a : ℚ) (b : ℚ))))
  | _, _ =>
    match l.toRat?, r.toRat? with
    | some x, some y =>
      if y = 0 then .error .ZeroDivisionError
      else .ok (.float ((qFloor (qDiv x y) : ℤ) : ℚ))
    | _, _ => .error .TypeError

/-- Python `%` (line 115 `left % right`): the remainder paired with floor
division, i.e. `x - y * floor(x / y)` (Python language reference), so the
sign follows the divisor; `ZeroDivisionError` on a zero divisor. -/
def pyMod (l r : Val) : Except EvalErr Val :=
  match l.intLike?, r.intLike? with
  | some a, some b =>
    if b = 0 then .error .ZeroDivisionError
    else .ok (.int (a - b * qFloor (qDiv (a : ℚ) (b : ℚ))))
  | _, _ =>
    match l.toRat?, r.toRat? with
    | some x, some y =>
      if y = 0 then .error .ZeroDivisionError
      else .ok (.float (qSub x (qMul y ((qFloor (qDiv x y) : ℤ) : ℚ))))
    | _, _ => .error .TypeError

/-- Python `**` (line 120 `left ** right`), reached only after the guard of
line 118: int base and nonnegative int exponent give an exact int; an int
negative exponent gives the exact float reciprocal (`ZeroDivisionError` on
base 0); a float with an integer-valued exponent likewise.  A non-integer
exponent is real (or, for a negative base, complex) valued in Python; that
value lies outside this rational embedding and is represented by
`qRootApprox` of the magnitude — no claim evaluates such an exponent. -/
def pyPow (l r : Val) : Except EvalErr Val :=
  match l.intLike?, r.intLike? with
  | some a, some b =>
    if 0 ≤ b then .ok (.int (a ^ b.toNat))
    else if a = 0 then .error .ZeroDivisionError
    else .ok (.float (qZpow (a : ℚ) b))
  | _, _ =>
    match l.toRat?, r.toRat? with
    | some x, some y =>
      if y.den = 1 then
        if x = 0 ∧ y.num < 0 then .error .ZeroDivisionError
        else .ok (.float (qZpow x y.num))
      else
        if x = 0 then
          if y.num < 0 then .error .ZeroDivisionError else .ok (.float 0)
        else .ok (.float (qRootApprox y.den (qZpow (qAbs x) y.num)))
    | _, _ => .error .TypeError

/-- Python unary `+` (line 96 `+operand`): the identity on ints and floats,
promotes a bool to an int, `TypeError` on a function object. -/
def pyPos (v : Val) : Except EvalErr Val :=
  match v with
  | .int n => .ok (.int n)
  | .float q => .ok (.float q)
  | .bool b => .ok (.int (if b then 1 else 0))
  | .builtin _ => .error .TypeError

/-- Python unary `-` (line 98 `-operand`). -/
def pyNeg (v : Val) : Except EvalErr Val :=
  match v with
  | .int n => .ok (.int (-n))
  | .float q => .ok (.float (qNeg q))
  | .bool b => .ok (.int (-(if b then 1 else 0)))
  | .builtin _ => .error .TypeError

/-- Python's round-half-to-even of a rational to an integer (the `round`
builtin's tie-breaking rule). -/
def halfEvenRound (q : ℚ) : ℤ :=
  let f := qFloor q
  let fr := qSub q ((f : ℤ) : ℚ)
  if fr < Rat.divInt 1 2 then f
  else if Rat.divInt 1 2 < fr then f + 1
  else if f % 2 = 0 then f else f + 1

/-- Registry entry `math.sqrt` (line 58): one numeric argument, raises
`ValueError('math domain error')` for a negative argument, otherwise the
(approximated) square root as a float; any other call is a `TypeError`. -/
def sqrtFn : List Val → Except EvalErr Val
  | [v] =>
    match v.toRat? with
    | some x =>
      if x < 0 then .error (.ValueError (r"math domain error"))
      else .ok (.float (qRootApprox 2 x))
    | none => .error .TypeError
  | _ => .error .TypeError

/-- Registry entry `math.sin` (line 59). -/
def sinFn : List Val → Except EvalErr Val
  | [v] =>
    match v.toRat? with
    | some x => .ok (.float (sinApprox x))
    | none => .error .TypeError
  | _ => .error .TypeError

/-- Registry entry `math.cos` (line 60). -/
def cosFn : List Val → Except EvalErr Val
  | [v] =>
    match v.toRat? with
    | some x => .ok (.float (cosApprox x))
    | none => .error .TypeError
  | _ => .error .TypeError

/-- Registry entry `math.tan` (line 61). -/
def tanFn : List Val → Except EvalErr Val
  | [v] =>
    match v.toRat? with
    | some x => .ok (.float (tanApprox x))
    | none => .error .TypeError
  | _ => .error .TypeError

/-- Registry entry `math.log` (line 62): natural log of one argument, or
`log(x, base)` with two; non-positive arguments raise
`ValueError('math domain error')`, base 1 divides `log x` by `log 1 = 0`
and so raises `ZeroDivisionError`. -/
def logFn : List Val → Except EvalErr Val
  | [v] =>
    match v.toRat? with
    | some x =>
      if x ≤ 0 then .error (.ValueError (r"math domain error"))
      else .ok (.float (lnApprox x))
    | none => .error .TypeError
  | [v, b] =>
    match v.toRat?, b.toRat? with
    | some x, some y =>
      if x ≤ 0 then .error (.ValueError (r"math domain error"))
      else if y ≤ 0 then .error (.ValueError (r"math domain error"))
      else if y = 1 then .error .ZeroDivisionError
      else .ok (.float (qDiv (lnApprox x) (lnApprox y)))
    | _, _ => .error .TypeError
  | _ => .error .TypeError

/-- Registry entry `math.log10` (line 63). -/
def log10Fn : List Val → Except EvalErr Val
  | [v] =>
    match v.toRat? with
    | some x =>
      if x ≤ 0 then .error (.ValueError (r"math domain error"))
      else .ok (.float (qDiv (lnApprox x) (lnApprox 10)))
    | none => .error .TypeError
  | _ => .error .TypeError

/-- Registry entry: the `abs` builtin (line 64): exactly one numeric
argument; an int (also for bools) or a float of the same magnitude. -/
def absFn : List Val → Except EvalErr Val
  | [.int n] => .ok (.int (if n < 0 then -n else n))
  | [.bool b] => .ok (.int (if b then 1 else 0))
  | [.float q] => .ok (.float (qAbs q))
  | _ => .error .TypeError

/-- Registry entry: the `round` builtin (line 65): one numeric argument
rounds half-to-even to an int; a second argument must be int-like and
rounds at that decimal position, preserving int/float-ness of the first
argument. -/
def roundFn : List Val → Except EvalErr Val
  | [v] =>
    match v.intLike? with
    | some a => .ok (.int a)
    | none =>
      match v with
      | .float q => .ok (.int (halfEvenRound q))
      | _ => .error .TypeError
  | [v, w] =>
    match w.intLike? with
    | none => .error .TypeError
    | some k =>
      match v with
      | .int a =>
        if 0 ≤ k then .ok (.int a)
        else
          let p : ℤ := ((10 : ℕ) ^ (-k).toNat : ℕ)
          .ok (.int (halfEvenRound (Rat.divInt a p) * p))
      | .bool b => .ok (.int (if b then 1 else 0))
      | .float q =>
        .ok (.float (qDiv ((halfEvenRound (qMul q (qZpow 10 k)) : ℤ) : ℚ) (qZpow 10 k)))
      | .builtin _ => .error .TypeError
  | _ => .error .TypeError

/-- First-order names for the eight function objects the registry stores
(lines 58-65): the embedding denotes each stored function object by its
identifier and applies it through `applyFn`. -/
inductive FnId where
  | sqrtI
  | sinI
  | cosI
  | tanI
  | logI
  | log10I
  | absI
  | roundI
deriving DecidableEq, Repr

/-- Application of a registry function object. -/
def applyFn : FnId → List Val → Except EvalErr Val
  | .sqrtI, vs => sqrtFn vs
  | .sinI, vs => sinFn vs
  | .cosI, vs => cosFn vs
  | .tanI, vs => tanFn vs
  | .logI, vs => logFn vs
  | .log10I, vs => log10Fn vs
  | .absI, vs => absFn vs
  | .roundI, vs => roundFn vs

/-- A value of the registry dict `allowed_names` (lines 53-66): either a
numeric constant or a function object. -/
inductive RegEntry where
  | const (v : Val)
  | fn (f : FnId)
deriving DecidableEq, Repr

/-- The exact rational value of the IEEE-754 double `math.pi`. -/
def piRat : ℚ := Rat.divInt 884279719003555 281474976710656

/-- The exact rational value of the IEEE-754 double `math.e`. -/
def eRat : ℚ := Rat.divInt 6121026514868073 2251799813685248

/-- The registry `self.allowed_names` (lines 53-66): the constants `pi`
and `e` and the functions `sqrt`, `sin`, `cos`, `tan`, `log`, `log10`,
`abs`, `round` — one flat dict holding both kinds of entry. -/
def allowed_names : List (String × RegEntry) :=
  [(r"pi", .const (.float piRat)),
   (r"e", .const (.float eRat)),
   (r"sqrt", .fn .sqrtI),
   (r"sin", .fn .sinI),
   (r"cos", .fn .cosI),
   (r"tan", .fn .tanI),
   (r"log", .fn .logI),
   (r"log10", .fn .log10I),
   (r"abs", .fn .absI),
   (r"round", .fn .roundI)]

/-- Dict lookup `self.allowed_names[id]`. -/
def lookupName (id : String) : Option RegEntry := allowed_names.lookup id

/-- The membership test `id in self.allowed_names` (lines 124, 131). -/
def isRegistered (id : String) : Bool := (lookupName id).isSome

/-- Python `func(*args)` for a registry entry (line 127): calling a stored
constant (a float, not a callable) raises `TypeError`; calling a stored
function applies it. -/
def applyEntry : RegEntry → List Val → Except EvalErr Val
  | .const _, _ => .error .TypeError
  | .fn f, vs => applyFn f vs

/-- The constants of Python's `ast.Constant` nodes representable in
`mode='eval'` expressions that concern this evaluator: numbers, bools
(keyword literals `True`/`False`), strings and `None`. -/
inductive PyConst where
  | intC (n : ℤ)
  | floatC (q : ℚ)
  | boolC (b : Bool)
  | strC (s : String)
  | noneC
deriving DecidableEq, Repr

/-- The unary operator nodes of the Python AST (`ast.UAdd`, `ast.USub`
are handled at lines 95-98; `ast.Not`/`ast.Invert` fall to line 99). -/
inductive UnOp where
  | uadd
  | usub
  | notOp
  | invert
deriving DecidableEq, Repr

/-- The binary operator nodes of the Python AST handled (or explicitly
left unhandled, for `ast.MatMult`) at lines 104-121. -/
inductive BinOpK where
  | add
  | sub
  | mult
  | div
  | floorDiv
  | mod
  | pow
  | matMult
deriving DecidableEq, Repr

mutual
/-- The expression trees `ast.parse(..., mode='eval').body` can hand to
`_eval`: the arithmetic kinds plus the out-of-grammar kinds the claims
mention (`ast.Attribute`, `ast.Subscript` — absent from `allowed_nodes`,
lines 31-52 — and `ast.List`/`ast.Tuple`, which are present in
`allowed_nodes` but handled by no `_eval` branch). -/
inductive Ast where
  | constant (c : PyConst)
  | unaryOp (op : UnOp) (operand : Ast)
  | binOp (op : BinOpK) (left right : Ast)
  | call (func : Ast) (args : AstList)
  | name (id : String)
  | attrAccess (value : Ast) (attrName : String)
  | subscript (value : Ast) (index : Ast)
  | listLit (elts : AstList)
  | tupleLit (elts : AstList)
/-- A list of argument (or element) subtrees. -/
inductive AstList where
  | nil
  | cons (head : Ast) (tail : AstList)
end

/-- The allow-list test of line 82, `isinstance(node, self.allowed_nodes)`,
restricted to the node kinds of `Ast`: `ast.Attribute` and `ast.Subscript`
are the kinds not in the `allowed_nodes` tuple. -/
def isAllowedNode : Ast → Bool
  | .attrAccess _ _ => false
  | .subscript _ _ => false
  | _ => true

/-- The unary-operator dispatch of lines 95-99, applied to the already
evaluated operand: `ast.UAdd` and `ast.USub` are handled, every other
unary operator raises `ValueError('Unsupported unary operator')`. -/
def applyUnaryOp (op : UnOp) (v : Val) : Except EvalErr Val :=
  match op with
  | .uadd => pyPos v
  | .usub => pyNeg v
  | .notOp => .error (.ValueError (r"Unsupported unary operator"))
  | .invert => .error (.ValueError (r"Unsupported unary operator"))

/-- The binary-operator dispatch of lines 104-121, applied to the already
evaluated operands.  The `ast.Pow` branch first runs the guard of lines
117-119: `if abs(left) > 1e6 or abs(right) > 10: raise ValueError(
'Exponent too large')` — `abs` raises `TypeError` on a function object,
and the `or` short-circuits, hence the sequential shape.  Operators
beyond the seven handled ones (`ast.MatMult`, allow-listed at line 51)
fall to line 121's `ValueError('Unsupported operator')`. -/
def applyBinOp (op : BinOpK) (lv rv : Val) : Except EvalErr Val :=
  match op with
  | .add => pyAdd lv rv
  | .sub => pySub lv rv
  | .mult => pyMul lv rv
  | .div => pyDiv lv rv
  | .floorDiv => pyFloorDiv lv rv
  | .mod => pyMod lv rv
  | .pow =>
    match lv.toRat? with
    | none => .error .TypeError
    | some x =>
      if 1000000 < qAbs x then .error (.ValueError (r"Exponent too large"))
      else
        match rv.toRat? with
        | none => .error .TypeError
        | some y =>
          if 10 < qAbs y then .error (.ValueError (r"Exponent too large"))
          else pyPow lv rv
  | .matMult => .error (.ValueError (r"Unsupported operator"))

mutual
/-- `SafeEvaluator._eval` (lines 81-135).  Branch for branch: the
allow-list check of lines 82-83 rejects `attribute`/`subscript` (the
kinds missing from `allowed_nodes`) with `ValueError('Disallowed
expression')`; `ast.Constant` (85-88) returns int/float/bool values
(`bool` passes because `isinstance(True, int)` holds in Python) and
raises `ValueError('Invalid constant')` on strings and `None`;
`ast.UnaryOp` (93-99) evaluates the operand then dispatches on the
operator; `ast.BinOp` (101-121) evaluates left then right then
dispatches; `ast.Call` (123-128) requires the callee to be a registered
`ast.Name` before evaluating the arguments left to right, else raises
`ValueError('Function not allowed')`; `ast.Name` (130-133) returns the
registry entry (constant value or function object) or raises
`ValueError('Unknown identifier')`; the residual allow-listed kinds
`ast.List`/`ast.Tuple` fall through every branch to line 135's
`ValueError('Invalid expression')`.  (The `ast.Num` branch of lines
90-91 is dead code on supported Python versions: the parser emits
`ast.Constant`, checked first.)  The only operations the walk performs
are the numeric ones above and the fixed registry functions. -/
def evalNode : Ast → Except EvalErr Val
  | .attrAccess _ _ => .error (.ValueError (r"Disallowed expression"))
  | .subscript _ _ => .error (.ValueError (r"Disallowed expression"))
  | .constant c =>
    match c with
    | .intC n => .ok (.int n)
    | .floatC q => .ok (.float q)
    | .boolC b => .ok (.bool b)
    | .strC _ => .error (.ValueError (r"Invalid constant"))
    | .noneC => .error (.ValueError (r"Invalid constant"))
  | .unaryOp op x => do
    let v ← evalNode x
    applyUnaryOp op v
  | .binOp op l r => do
    let lv ← evalNode l
    let rv ← evalNode r
    applyBinOp op lv rv
  | .call f args =>
    match f with
    | .name id =>
      match lookupName id with
      | some entry => do
        let vs ← evalArgs args
        applyEntry entry vs
      | none => .error (.ValueError (r"Function not allowed"))
    | _ => .error (.ValueError (r"Function not allowed"))
  | .name id =>
    match lookupName id with
    | some (.const v) => .ok v
    | some (.fn _) => .ok (.builtin id)
    | none => .error (.ValueError (r"Unknown identifier"))
  | .listLit _ => .error (.ValueError (r"Invalid expression"))
  | .tupleLit _ => .error (.ValueError (r"Invalid expression"))
/-- The list comprehension of line 126, `[self._eval(arg) for arg in
node.args]`: evaluates arguments left to right, propagating the first
error. -/
def evalArgs : AstList → Except EvalErr (List Val)
  | .nil => .ok []
  | .cons a rest => do
    let v ← evalNode a
    let vs ← evalArgs rest
    .ok (v :: vs)
end

/-- Tokens of the arithmetic expression grammar. -/
inductive Tok where
  | intTok (n : ℕ)
  | floatTok (q : ℚ)
  | identTok (s : String)
  | plusT
  | minusT
  | starT
  | dstarT
  | slashT
  | dslashT
  | percentT
  | atT
  | lparenT
  | rparenT
  | commaT
deriving DecidableEq, Repr

/-- Identifier start characters (ASCII letters and underscore). -/
def isIdentStart (c : Char) : Bool := c.isAlpha || c = '_'

/-- Identifier continuation characters. -/
def isIdentChar (c : Char) : Bool := c.isAlphanum || c = '_'

/-- Whitespace skipped by the tokenizer. -/
def isWs (c : Char) : Bool := c = ' ' || c = '\t' || c = '\n' || c = '\r'

/-- The natural number denoted by a run of decimal digits. -/
def digitsVal (ds : List Char) : ℕ := ds.foldl (fun a c => 10 * a + (c.toNat - 48)) 0

/-- The rational `m * 10 ^ e` of a decimal literal. -/
def decimalValue (m : ℕ) (e : ℤ) : ℚ :=
  if 0 ≤ e then (((m : ℤ) * (10 : ℤ) ^ e.toNat : ℤ) : ℚ)
  else Rat.divInt (m : ℤ) ((10 : ℤ) ^ (-e).toNat)

/-- Finishes a numeric literal after its mantissa: an optional exponent
part (`e`/`E`, optional sign, at least one digit) always yields a float;
otherwise a float if a decimal point was seen, else an int —
rejecting the int literals with leading zeros that Python rejects. -/
def finishNum (isFloat badInt : Bool) (m fracLen : ℕ) (r : List Char) :
    Option (Tok × List Char) :=
  match r with
  | c :: rest =>
    if c = 'e' ∨ c = 'E' then
      match
        (match rest with
         | '+' :: r3 => ((1 : ℤ), r3)
         | '-' :: r3 => ((-1 : ℤ), r3)
         | _ => ((1 : ℤ), rest)) with
      | (sgn, r2) =>
        match r2.span Char.isDigit with
        | (ds, r4) =>
          if ds.isEmpty then none
          else some (.floatTok (decimalValue m (sgn * (digitsVal ds : ℤ) - fracLen)), r4)
    else if isFloat then some (.floatTok (decimalValue m (-(fracLen : ℤ))), r)
    else if badInt then none
    else some (.intTok m, r)
  | [] =>
    if isFloat then some (.floatTok (decimalValue m (-(fracLen : ℤ))), [])
    else if badInt then none
    else some (.intTok m, [])

/-- Scans one numeric literal (`digits`, `digits.digits`, `.digits`,
`digits.`, with an optional exponent), following Python's lexical
grammar for decimal literals. -/
def lexNumber (cs : List Char) : Option (Tok × List Char) :=
  match cs.span Char.isDigit with
  | (ip, r1) =>
    match r1 with
    | '.' :: r2 =>
      match r2.span Char.isDigit with
      | (fp, r3) =>
        if ip.isEmpty && fp.isEmpty then none
        else finishNum true false (digitsVal (ip ++ fp)) fp.length r3
    | _ =>
      if ip.isEmpty then none
      else finishNum false (ip.head? = some '0' ∧ ip.any (fun c => c ≠ '0') : Bool)
        (digitsVal ip) 0 r1

/-- Modelled from the spec: the tokenizer underlying the Parser component
(Python's `ast.parse` in `mode='eval'`, line 76 of `main.py`, which is
library code outside this repository), restricted per spec section 4.2 to
the arithmetic grammar's lexicon: numeric literals, identifiers (plus the
keyword literals `True`/`False`/`None`, which Python tokenizes as
constants, never as names), the operators `+ - * / // % ** @`,
parentheses and commas.  Any other character is a syntax error, exactly
as section 4.2's "unrecognized characters" clause demands. -/
def lexAux : ℕ → List Char → Option (List Tok)
  | 0, _ => none
  | _ + 1, [] => some []
  | fuel + 1, c :: cs =>
    if isWs c then lexAux fuel cs
    else if c.isDigit ∨ (c = '.' ∧ (cs.head?.elim false Char.isDigit)) then
      match lexNumber (c :: cs) with
      | some (t, rest) => (lexAux fuel rest).map (t :: ·)
      | none => none
    else if isIdentStart c then
      match cs.span isIdentChar with
      | (ids, rest) => (lexAux fuel rest).map (Tok.identTok (String.mk (c :: ids)) :: ·)
    else if c = '*' then
      match cs with
      | '*' :: rest => (lexAux fuel rest).map (.dstarT :: ·)
      | _ => (lexAux fuel cs).map (.starT :: ·)
    else if c = '/' then
      match cs with
      | '/' :: rest => (lexAux fuel rest).map (.dslashT :: ·)
      | _ => (lexAux fuel cs).map (.slashT :: ·)
    else if c = '+' then (lexAux fuel cs).map (.plusT :: ·)
    else if c = '-' then (lexAux fuel cs).map (.minusT :: ·)
    else if c = '%' then (lexAux fuel cs).map (.percentT :: ·)
    else if c = '@' then (lexAux fuel cs).map (.atT :: ·)
    else if c = '(' then (lexAux fuel cs).map (.lparenT :: ·)
    else if c = ')' then (lexAux fuel cs).map (.rparenT :: ·)
    else if c = ',' then (lexAux fuel cs).map (.commaT :: ·)
    else none

mutual
/-- Modelled from the spec: the Parser component (spec section 4.2;
`ast.parse(..., mode='eval')` at line 76 is library code outside this
repository).  Additive level: `expr := term (('+'|'-') term)*`,
left-associative. -/
def parseExprP : ℕ → List Tok → Option (Ast × List Tok)
  | 0, _ => none
  | fuel + 1, ts => do
    let (t, r) ← parseTerm fuel ts
    parseExprRest fuel t r
/-- Left-associative continuation of the additive level. -/
def parseExprRest : ℕ → Ast → List Tok → Option (Ast × List Tok)
  | 0, _, _ => none
  | fuel + 1, acc, ts =>
    match ts with
    | .plusT :: r => do
      let (t, r2) ← parseTerm fuel r
      parseExprRest fuel (.binOp .add acc t) r2
    | .minusT :: r => do
      let (t, r2) ← parseTerm fuel r
      parseExprRest fuel (.binOp .sub acc t) r2
    | _ => some (acc, ts)
/-- Multiplicative level: `term := factor (('*'|'/'|'//'|'%'|'@') factor)*`,
left-associative (`@` builds the `ast.MatMult` node that `_eval` then
rejects, matching Python's grammar). -/
def parseTerm : ℕ → List Tok → Option (Ast × List Tok)
  | 0, _ => none
  | fuel + 1, ts => do
    let (t, r) ← parseFactor fuel ts
    parseTermRest fuel t r
/-- Left-associative continuation of the multiplicative level. -/
def parseTermRest : ℕ → Ast → List Tok → Option (Ast × List Tok)
  | 0, _, _ => none
  | fuel + 1, acc, ts =>
    match ts with
    | .starT :: r => do
      let (t, r2) ← parseFactor fuel r
      parseTermRest fuel (.binOp .mult acc t) r2
    | .slashT :: r => do
      let (t, r2) ← parseFactor fuel r
      parseTermRest fuel (.binOp .div acc t) r2
    | .dslashT :: r => do
      let (t, r2) ← parseFactor fuel r
      parseTermRest fuel (.binOp .floorDiv acc t) r2
    | .percentT :: r => do
      let (t, r2) ← parseFactor fuel r
      parseTermRest fuel (.binOp .mod acc t) r2
    | .atT :: r => do
      let (t, r2) ← parseFactor fuel r
      parseTermRest fuel (.binOp .matMult acc t) r2
    | _ => some (acc, ts)
/-- Unary level: `factor := ('+'|'-') factor | power` — Python's
precedence, where unary minus binds tighter than `*`-level operators but
looser than `**` on its left (`-7 // 2` is `(-7) // 2`, while `-2**2` is
`-(2**2)`). -/
def parseFactor : ℕ → List Tok → Option (Ast × List Tok)
  | 0, _ => none
  | fuel + 1, ts =>
    match ts with
    | .plusT :: r => do
      let (x, r2) ← parseFactor fuel r
      some (.unaryOp .uadd x, r2)
    | .minusT :: r => do
      let (x, r2) ← parseFactor fuel r
      some (.unaryOp .usub x, r2)
    | _ => parsePower fuel ts
/-- Exponentiation level: `power := atom ['**' factor]`, right-associative
with a unary-capable right operand, as in Python. -/
def parsePower : ℕ → List Tok → Option (Ast × List Tok)
  | 0, _ => none
  | fuel + 1, ts => do
    let (a, r) ← parseAtom fuel ts
    match r with
    | .dstarT :: r2 => do
      let (b, r3) ← parseFactor fuel r2
      some (.binOp .pow a b, r3)
    | _ => some (a, r)
/-- Atom level: numeric literal, keyword constant, identifier, function
call `name(arg, ...)`, or parenthesized expression (spec section 4.2). -/
def parseAtom : ℕ → List Tok → Option (Ast × List Tok)
  | 0, _ => none
  | fuel + 1, ts =>
    match ts with
    | .intTok n :: r => some (.constant (.intC (n : ℤ)), r)
    | .floatTok q :: r => some (.constant (.floatC q), r)
    | .identTok s :: r =>
      if s = (r"True") then some (.constant (.boolC true), r)
      else if s = (r"False") then some (.constant (.boolC false), r)
      else if s = (r"None") then some (.constant .noneC, r)
      else
        match r with
        | .lparenT :: r2 =>
          match r2 with
          | .rparenT :: r3 => some (.call (.name s) .nil, r3)
          | _ => do
            let (args, r3) ← parseArgsList fuel r2
            match r3 with
            | .rparenT :: r4 => some (.call (.name s) args, r4)
            | _ => none
        | _ => some (.name s, r)
    | .lparenT :: r => do
      let (e, r2) ← parseExprP fuel r
      match r2 with
      | .rparenT :: r3 => some (e, r3)
      | _ => none
    | _ => none
/-- Comma-separated call arguments, allowing Python's trailing comma. -/
def parseArgsList : ℕ → List Tok → Option (AstList × List Tok)
  | 0, _ => none
  | fuel + 1, ts => do
    let (e, r) ← parseExprP fuel ts
    match r with
    | .commaT :: r2 =>
      match r2 with
      | .rparenT :: _ => some (.cons e .nil, r2)
      | _ => do
        let (rest, r3) ← parseArgsList fuel r2
        some (.cons e rest, r3)
    | _ => some (.cons e .nil, r)
end

/-- Modelled from the spec: `parse` — the whole Parser component
(spec section 4.2; `ast.parse(sanitized, mode='eval')` at line 76).
`none` is Python's `SyntaxError`: unbalanced parentheses, trailing or
leading operators, empty input, malformed numeric literals, unrecognized
characters, or leftover tokens after a complete expression. -/
def parse (s : String) : Option Ast :=
  match lexAux (s.data.length + 1) s.data with
  | none => none
  | some ts =>
    match parseExprP (8 * ts.length + 8) ts with
    | some (t, []) => some t
    | _ => none

/-- One pass of Python's single-character `str.replace`: substituting a
one-character needle is a per-code-point map. -/
def replaceAll (src tgt : Char) (cs : List Char) : List Char :=
  cs.map fun c => if c = src then tgt else c

/-- The sanitizer of lines 70-74: `expression.replace('×', '*')
.replace('÷', '/').replace('−', '-')`, three sequential single-glyph
replacements on decoded text. -/
def sanitize (s : String) : String :=
  String.mk (replaceAll '−' '-' (replaceAll '÷' '/' (replaceAll '×' '*' s.data)))

/-- `SafeEvaluator.evaluate` (lines 68-79): sanitize, parse in `eval`
mode — re-raising any `SyntaxError` as `ValueError('Invalid expression')`
(lines 75-78) — then run `_eval` on the tree's body. -/
def evaluate (s : String) : Except EvalErr Val :=
  match parse (sanitize s) with
  | none => .error (.ValueError (r"Invalid expression"))
  | some t => evalNode t


/-- The per-code-point effect of the three sequential glyph replacements. -/
def sanChar (c : Char) : Char :=
  let c1 := if c = '×' then '*' else c
  let c2 := if c1 = '÷' then '/' else c1
  if c2 = '−' then '-' else c2

theorem sanitize_data (s : String) : (sanitize s).data = s.data.map sanChar := by
  show List.map _ (List.map _ (List.map _ s.data)) = _
  rw [List.map_map, List.map_map]
  rfl

theorem sanChar_idem (c : Char) : sanChar (sanChar c) = sanChar c := by
  by_cases h1 : c = '×'
  · subst h1; decide
  · by_cases h2 : c = '÷'
    · subst h2; decide
    · by_cases h3 : c = '−'
      · subst h3; decide
      · simp only [sanChar]
        rw [if_neg h1, if_neg h2, if_neg h3, if_neg h1, if_neg h2, if_neg h3]

theorem sanChar_map_idem (cs : List Char) :
    List.map sanChar (List.map sanChar cs) = List.map sanChar cs := by
  induction cs with
  | nil => rfl
  | cons c rest ih => simp only [List.map, sanChar_idem, ih]

theorem sanitize_idem (s : String) : sanitize (sanitize s) = sanitize s := by
  apply String.ext
  rw [sanitize_data (sanitize s), sanitize_data s]
  exact sanChar_map_idem s.data

mutual
/-- Whether the tree contains a construct outside the arithmetic grammar,
in the sense of the spec's safety property: attribute access,
subscripting, string (or `None`) literals, list or tuple literals, an
identifier not in the registry, a call whose target is not a registered
name, or an operator `_eval` does not implement (`not`, `~`, `@`).
By left-to-right evaluation, `call` targets that are registered names are
the only subtrees `_eval` can skip while succeeding, and those are leaf
`ast.Name` nodes, covered by the `call` clause here. -/
def outsideGrammar : Ast → Bool
  | .constant c =>
    match c with
    | .strC _ => true
    | .noneC => true
    | _ => false
  | .unaryOp op x =>
    (match op with
     | .notOp => true
     | .invert => true
     | _ => false) || outsideGrammar x
  | .binOp op l r =>
    (match op with
     | .matMult => true
     | _ => false) || outsideGrammar l || outsideGrammar r
  | .call f args =>
    (match f with
     | .name id => !(isRegistered id)
     | _ => true) || outsideGrammarArgs args
  | .name id => !(isRegistered id)
  | .attrAccess _ _ => true
  | .subscript _ _ => true
  | .listLit _ => true
  | .tupleLit _ => true
/-- Whether some argument subtree contains an out-of-grammar construct. -/
def outsideGrammarArgs : AstList → Bool
  | .nil => false
  | .cons a rest => outsideGrammar a || outsideGrammarArgs rest
end

theorem except_bind_ok {α β : Type} (a : α) (f : α → Except EvalErr β) :
    (Except.ok a >>= f) = f a := rfl

theorem except_bind_err {α β : Type} (e : EvalErr) (f : α → Except EvalErr β) :
    ((Except.error e : Except EvalErr α) >>= f) = Except.error e := rfl

theorem unaryOp_operand_err (op : UnOp) (x : Ast) (e : EvalErr)
    (he : evalNode x = .error e) : evalNode (.unaryOp op x) = .error e := by
  simp only [evalNode, he, except_bind_err]

theorem unaryOp_ok (op : UnOp) (x : Ast) (v : Val) (hv : evalNode x = .ok v) :
    evalNode (.unaryOp op x) = applyUnaryOp op v := by
  simp only [evalNode, hv, except_bind_ok]

theorem binOp_left_err (op : BinOpK) (l r : Ast) (e : EvalErr)
    (he : evalNode l = .error e) : evalNode (.binOp op l r) = .error e := by
  simp only [evalNode, he, except_bind_err]

theorem binOp_right_err (op : BinOpK) (l r : Ast) (lv : Val) (e : EvalErr)
    (hl : evalNode l = .ok lv) (he : evalNode r = .error e) :
    evalNode (.binOp op l r) = .error e := by
  simp only [evalNode, hl, he, except_bind_ok, except_bind_err]

theorem binOp_ok (op : BinOpK) (l r : Ast) (lv rv : Val)
    (hl : evalNode l = .ok lv) (hr : evalNode r = .ok rv) :
    evalNode (.binOp op l r) = applyBinOp op lv rv := by
  simp only [evalNode, hl, hr, except_bind_ok]

theorem call_reg (id : String) (entry : RegEntry) (args : AstList)
    (hlk : lookupName id = some entry) :
    evalNode (.call (.name id) args) = (evalArgs args >>= applyEntry entry) := by
  simp only [evalNode, hlk]

theorem call_unreg (id : String) (args : AstList) (hlk : lookupName id = none) :
    evalNode (.call (.name id) args) = .error (.ValueError (r"Function not allowed")) := by
  simp only [evalNode, hlk]

theorem args_head_err (a : Ast) (rest : AstList) (e : EvalErr)
    (he : evalNode a = .error e) : evalArgs (.cons a rest) = .error e := by
  simp only [evalArgs, he, except_bind_err]

theorem args_tail_err (a : Ast) (rest : AstList) (v : Val) (e : EvalErr)
    (ha : evalNode a = .ok v) (he : evalArgs rest = .error e) :
    evalArgs (.cons a rest) = .error e := by
  simp only [evalArgs, ha, he, except_bind_ok, except_bind_err]

mutual
/-- A tree containing an out-of-grammar construct never evaluates to a
value: `_eval` stops with an error (at the offending node or earlier);
combined with `evaluate_total`, no other effect is reachable. -/
theorem outsideGrammar_err :
    (t : Ast) → outsideGrammar t = true → ∃ e, evalNode t = .error e
  | .constant c, h => by
    cases c with
    | strC s => exact ⟨_, rfl⟩
    | noneC => exact ⟨_, rfl⟩
    | intC n => simp [outsideGrammar] at h
    | floatC q => simp [outsideGrammar] at h
    | boolC b => simp [outsideGrammar] at h
  | .unaryOp op x, h => by
    cases op with
    | uadd =>
      have hx : outsideGrammar x = true := by
        simpa [outsideGrammar] using h
      obtain ⟨e, he⟩ := outsideGrammar_err x hx
      exact ⟨e, unaryOp_operand_err _ _ _ he⟩
    | usub =>
      have hx : outsideGrammar x = true := by
        simpa [outsideGrammar] using h
      obtain ⟨e, he⟩ := outsideGrammar_err x hx
      exact ⟨e, unaryOp_operand_err _ _ _ he⟩
    | notOp =>
      cases hv : evalNode x with
      | error e => exact ⟨e, unaryOp_operand_err _ _ _ hv⟩
      | ok v => exact ⟨_, by rw [unaryOp_ok _ _ _ hv]; rfl⟩
    | invert =>
      cases hv : evalNode x with
      | error e => exact ⟨e, unaryOp_operand_err _ _ _ hv⟩
      | ok v => exact ⟨_, by rw [unaryOp_ok _ _ _ hv]; rfl⟩
  | .binOp op l r, h => by
    cases op
    case matMult =>
      cases hl : evalNode l with
      | error e => exact ⟨e, binOp_left_err _ _ _ _ hl⟩
      | ok lv =>
        cases hr : evalNode r with
        | error e => exact ⟨e, binOp_right_err _ _ _ _ _ hl hr⟩
        | ok rv => exact ⟨_, by rw [binOp_ok _ _ _ _ _ hl hr]; rfl⟩
    all_goals
      (have hlr : outsideGrammar l = true ∨ outsideGrammar r = true := by
        simpa [outsideGrammar, Bool.or_eq_true] using h
       rcases hlr with hx | hx
       · obtain ⟨e, he⟩ := outsideGrammar_err l hx
         exact ⟨e, binOp_left_err _ _ _ _ he⟩
       · cases hl : evalNode l with
         | error e => exact ⟨e, binOp_left_err _ _ _ _ hl⟩
         | ok lv =>
           obtain ⟨e, he⟩ := outsideGrammar_err r hx
           exact ⟨e, binOp_right_err _ _ _ _ _ hl he⟩)
  | .call f args, h => by
    cases f with
    | name id =>
      cases hlk : lookupName id with
      | none => exact ⟨_, call_unreg _ _ hlk⟩
      | some entry =>
        have hreg : isRegistered id = true := by simp [isRegistered, hlk]
        have hx : outsideGrammarArgs args = true := by
          have hh := h
          simp only [outsideGrammar, hreg, Bool.not_true, Bool.false_or] at hh
          exact hh
        obtain ⟨e, he⟩ := outsideGrammarArgs_err args hx
        refine ⟨e, ?_⟩
        rw [call_reg _ _ _ hlk, he, except_bind_err]
    | constant c => exact ⟨_, rfl⟩
    | unaryOp op x => exact ⟨_, rfl⟩
    | binOp op l r => exact ⟨_, rfl⟩
    | call g bs => exact ⟨_, rfl⟩
    | attrAccess v a => exact ⟨_, rfl⟩
    | subscript v i => exact ⟨_, rfl⟩
    | listLit es => exact ⟨_, rfl⟩
    | tupleLit es => exact ⟨_, rfl⟩
  | .name id, h => by
    have hx : isRegistered id = false := by
      have hh := h
      simp only [outsideGrammar, Bool.not_eq_true'] at hh
      exact hh
    cases hlk : lookupName id with
    | none => exact ⟨.ValueError (r"Unknown identifier"), by simp only [evalNode, hlk]⟩
    | some entry =>
      exfalso
      rw [isRegistered, hlk] at hx
      simp at hx
  | .attrAccess v a, _ => ⟨_, rfl⟩
  | .subscript v i, _ => ⟨_, rfl⟩
  | .listLit es, _ => ⟨_, rfl⟩
  | .tupleLit es, _ => ⟨_, rfl⟩
/-- An argument list containing an out-of-grammar construct never
evaluates to a value list. -/
theorem outsideGrammarArgs_err :
    (ts : AstList) → outsideGrammarArgs ts = true → ∃ e, evalArgs ts = .error e
  | .nil, h => by simp [outsideGrammarArgs] at h
  | .cons a rest, h => by
    have hh : outsideGrammar a = true ∨ outsideGrammarArgs rest = true := by
      simpa [outsideGrammarArgs, Bool.or_eq_true] using h
    cases ha : evalNode a with
    | error e => exact ⟨e, args_head_err _ _ _ ha⟩
    | ok v =>
      rcases hh with hx | hx
      · obtain ⟨e, he⟩ := outsideGrammar_err a hx
        rw [he] at ha
        exact absurd ha (by simp)
      · obtain ⟨e, he⟩ := outsideGrammarArgs_err rest hx
        exact ⟨e, args_tail_err _ _ _ _ ha he⟩
end

theorem bind_ns {α β : Type} {x : Except EvalErr α} {f : α → Except EvalErr β}
    (hx : x ≠ .error .SyntaxError) (hf : ∀ a, f a ≠ .error .SyntaxError) :
    (x >>= f) ≠ .error .SyntaxError := by
  cases x with
  | error e =>
    rw [except_bind_err]
    intro hc
    apply hx
    have h1 : e = EvalErr.SyntaxError := by injection hc
    rw [h1]
  | ok a =>
    rw [except_bind_ok]
    exact hf a

theorem pyAdd_ns (l r : Val) : pyAdd l r ≠ .error .SyntaxError := by
  unfold pyAdd
  repeat' split
  all_goals simp

theorem pySub_ns (l r : Val) : pySub l r ≠ .error .SyntaxError := by
  unfold pySub
  repeat' split
  all_goals simp

theorem pyMul_ns (l r : Val) : pyMul l r ≠ .error .SyntaxError := by
  unfold pyMul
  repeat' split
  all_goals simp

theorem pyDiv_ns (l r : Val) : pyDiv l r ≠ .error .SyntaxError := by
  unfold pyDiv
  repeat' split
  all_goals simp

theorem pyFloorDiv_ns (l r : Val) : pyFloorDiv l r ≠ .error .SyntaxError := by
  unfold pyFloorDiv
  repeat' split
  all_goals simp

theorem pyMod_ns (l r : Val) : pyMod l r ≠ .error .SyntaxError := by
  unfold pyMod
  repeat' split
  all_goals simp

theorem pyPow_ns (l r : Val) : pyPow l r ≠ .error .SyntaxError := by
  unfold pyPow
  repeat' split
  all_goals simp

theorem pyPos_ns (v : Val) : pyPos v ≠ .error .SyntaxError := by
  cases v <;> simp [pyPos]

theorem pyNeg_ns (v : Val) : pyNeg v ≠ .error .SyntaxError := by
  cases v <;> simp [pyNeg]

theorem applyUnaryOp_ns (op : UnOp) (v : Val) :
    applyUnaryOp op v ≠ .error .SyntaxError := by
  cases op with
  | uadd => exact pyPos_ns v
  | usub => exact pyNeg_ns v
  | notOp => simp [applyUnaryOp]
  | invert => simp [applyUnaryOp]

theorem applyBinOp_ns (op : BinOpK) (l r : Val) :
    applyBinOp op l r ≠ .error .SyntaxError := by
  cases op with
  | add => exact pyAdd_ns l r
  | sub => exact pySub_ns l r
  | mult => exact pyMul_ns l r
  | div => exact pyDiv_ns l r
  | floorDiv => exact pyFloorDiv_ns l r
  | mod => exact pyMod_ns l r
  | pow =>
    simp only [applyBinOp]
    repeat' split
    all_goals first
      | exact pyPow_ns l r
      | simp
  | matMult => simp [applyBinOp]

theorem sqrtFn_ns (vs : List Val) : sqrtFn vs ≠ .error .SyntaxError := by
  unfold sqrtFn
  repeat' split
  all_goals simp

theorem sinFn_ns (vs : List Val) : sinFn vs ≠ .error .SyntaxError := by
  unfold sinFn
  repeat' split
  all_goals simp

theorem cosFn_ns (vs : List Val) : cosFn vs ≠ .error .SyntaxError := by
  unfold cosFn
  repeat' split
  all_goals simp

theorem tanFn_ns (vs : List Val) : tanFn vs ≠ .error .SyntaxError := by
  unfold tanFn
  repeat' split
  all_goals simp

theorem logFn_ns (vs : List Val) : logFn vs ≠ .error .SyntaxError := by
  unfold logFn
  repeat' split
  all_goals simp

theorem log10Fn_ns (vs : List Val) : log10Fn vs ≠ .error .SyntaxError := by
  unfold log10Fn
  repeat' split
  all_goals simp

theorem absFn_ns (vs : List Val) : absFn vs ≠ .error .SyntaxError := by
  unfold absFn
  repeat' split
  all_goals simp

theorem roundFn_ns (vs : List Val) : roundFn vs ≠ .error .SyntaxError := by
  unfold roundFn
  repeat' split
  all_goals simp

theorem applyFn_ns (f : FnId) (vs : List Val) : applyFn f vs ≠ .error .SyntaxError := by
  cases f
  exacts [sqrtFn_ns vs, sinFn_ns vs, cosFn_ns vs, tanFn_ns vs,
    logFn_ns vs, log10Fn_ns vs, absFn_ns vs, roundFn_ns vs]

theorem applyEntry_ns (entry : RegEntry) (vs : List Val) :
    applyEntry entry vs ≠ .error .SyntaxError := by
  cases entry with
  | const v => simp [applyEntry]
  | fn f => exact applyFn_ns f vs

mutual
/-- `_eval` can never produce a `SyntaxError`: every raise site of
lines 81-135 and every registry function raises `ValueError`,
`ZeroDivisionError` or `TypeError` only. -/
theorem evalNode_ns : (t : Ast) → evalNode t ≠ .error .SyntaxError
  | .constant c => by cases c <;> simp [evalNode]
  | .unaryOp op x => by
    simp only [evalNode]
    exact bind_ns (evalNode_ns x) (fun v => applyUnaryOp_ns op v)
  | .binOp op l r => by
    simp only [evalNode]
    exact bind_ns (evalNode_ns l)
      (fun lv => bind_ns (evalNode_ns r) (fun rv => applyBinOp_ns op lv rv))
  | .call f args => by
    cases f with
    | name id =>
      cases hlk : lookupName id with
      | none =>
        rw [call_unreg id args hlk]
        simp
      | some entry =>
        rw [call_reg id entry args hlk]
        exact bind_ns (evalArgs_ns args) (fun vs => applyEntry_ns entry vs)
    | constant c => simp [evalNode]
    | unaryOp op x => simp [evalNode]
    | binOp op l r => simp [evalNode]
    | call g bs => simp [evalNode]
    | attrAccess v a => simp [evalNode]
    | subscript v i => simp [evalNode]
    | listLit es => simp [evalNode]
    | tupleLit es => simp [evalNode]
  | .name id => by
    simp only [evalNode]
    repeat' split
    all_goals simp
  | .attrAccess v a => by simp [evalNode]
  | .subscript v i => by simp [evalNode]
  | .listLit es => by simp [evalNode]
  | .tupleLit es => by simp [evalNode]
/-- Argument evaluation can never produce a `SyntaxError`. -/
theorem evalArgs_ns : (ts : AstList) → evalArgs ts ≠ .error .SyntaxError
  | .nil => by simp [evalArgs]
  | .cons a rest => by
    simp only [evalArgs]
    exact bind_ns (evalNode_ns a)
      (fun v => bind_ns (evalArgs_ns rest) (fun vs => by simp))
end

/-- `evaluate` can never return Python's `SyntaxError`: the parser's
`SyntaxError` is caught at line 77 and re-raised as
`ValueError('Invalid expression')`, and `_eval` cannot produce one. -/
theorem evaluate_ns (s : String) : evaluate s ≠ .error .SyntaxError := by
  unfold evaluate
  cases parse (sanitize s) with
  | none => simp
  | some t => exact evalNode_ns t

/-- Python's exception class hierarchy, restricted to the classes of
`EvalErr`: `ZeroDivisionError` is a subclass of `ArithmeticError`;
`ValueError`, `TypeError` and `SyntaxError` are not `ArithmeticError`s. -/
def pyExcIsArithmeticError : EvalErr → Bool
  | .ZeroDivisionError => true
  | _ => false

/-- Modelled from the spec: whether an exception is one of the five kinds
of the spec's error taxonomy (section 7), under the most generous mapping
of the code's exceptions onto it — every `ValueError` of `_eval` maps to
the taxonomy kind of its raise site, `ZeroDivisionError` to
`ArithmeticError`, the parser's `SyntaxError` to `SyntaxError`.
`TypeError` corresponds to no taxonomy kind. -/
def inSpecErrorTaxonomy : EvalErr → Bool
  | .ValueError _ => true
  | .ZeroDivisionError => true
  | .SyntaxError => true
  | .TypeError => false

theorem lookup_isSome_iff {β : Type} (l : List (String × β)) (a : String) :
    (l.lookup a).isSome = true ↔ a ∈ l.map Prod.fst := by
  induction l with
  | nil => simp [List.lookup]
  | cons p rest ih =>
    obtain ⟨k, v⟩ := p
    simp only [List.lookup, List.map, List.mem_cons]
    by_cases h : a = k
    · subst h
      simp
    · have hb : (a == k) = false := by
        simpa using h
      simp [hb, h, ih]

/-- The registry holds exactly the ten names of lines 53-66. -/
theorem isRegistered_iff (s : String) :
    isRegistered s = true ↔
      s ∈ [(r"pi"), (r"e"), (r"sqrt"), (r"sin"), (r"cos"), (r"tan"),
           (r"log"), (r"log10"), (r"abs"), (r"round")] := by
  rw [isRegistered, lookupName, lookup_isSome_iff]
  rfl

theorem pyFloorDiv_int (a b : ℤ) (hb : b ≠ 0) :
    pyFloorDiv (.int a) (.int b) = .ok (.int ⌊(a : ℚ) / (b : ℚ)⌋) := by
  simp only [pyFloorDiv, Val.intLike?]
  rw [if_neg hb, qFloor_eq, qDiv_eq]

theorem pyMod_int (a b : ℤ) (hb : b ≠ 0) :
    pyMod (.int a) (.int b) = .ok (.int (a - b * ⌊(a : ℚ) / (b : ℚ)⌋)) := by
  simp only [pyMod, Val.intLike?]
  rw [if_neg hb, qFloor_eq, qDiv_eq]

theorem floor_mod_bounds_pos (a b : ℤ) (hb : 0 < b) :
    0 ≤ a - b * ⌊(a : ℚ) / (b : ℚ)⌋ ∧ a - b * ⌊(a : ℚ) / (b : ℚ)⌋ < b := by
  have hbq : (0 : ℚ) < (b : ℚ) := by exact_mod_cast hb
  have hbne : (b : ℚ) ≠ 0 := ne_of_gt hbq
  have h1 : ((⌊(a : ℚ) / (b : ℚ)⌋ : ℤ) : ℚ) ≤ (a : ℚ) / (b : ℚ) := Int.floor_le _
  have h2 : (a : ℚ) / (b : ℚ) < (⌊(a : ℚ) / (b : ℚ)⌋ : ℤ) + 1 := Int.lt_floor_add_one _
  have hm : (b : ℚ) * ((a : ℚ) / (b : ℚ)) = (a : ℚ) := by
    field_simp
  constructor
  · have h3 : (b : ℚ) * ((⌊(a : ℚ) / (b : ℚ)⌋ : ℤ) : ℚ) ≤ (a : ℚ) := by
      calc (b : ℚ) * ((⌊(a : ℚ) / (b : ℚ)⌋ : ℤ) : ℚ)
          ≤ (b : ℚ) * ((a : ℚ) / (b : ℚ)) := by
            exact mul_le_mul_of_nonneg_left h1 (le_of_lt hbq)
        _ = (a : ℚ) := hm
    have h4 : (0 : ℚ) ≤ (a : ℚ) - (b : ℚ) * ((⌊(a : ℚ) / (b : ℚ)⌋ : ℤ) : ℚ) := by
      linarith
    exact_mod_cast h4
  · have h5 : (a : ℚ) < (b : ℚ) * (((⌊(a : ℚ) / (b : ℚ)⌋ : ℤ) : ℚ) + 1) := by
      calc (a : ℚ) = (b : ℚ) * ((a : ℚ) / (b : ℚ)) := hm.symm
        _ < (b : ℚ) * (((⌊(a : ℚ) / (b : ℚ)⌋ : ℤ) : ℚ) + 1) := by
            exact mul_lt_mul_of_pos_left h2 hbq
    have h6 : (a : ℚ) - (b : ℚ) * ((⌊(a : ℚ) / (b : ℚ)⌋ : ℤ) : ℚ) < (b : ℚ) := by
      linarith
    exact_mod_cast h6

theorem floor_mod_bounds_neg (a b : ℤ) (hb : b < 0) :
    b < a - b * ⌊(a : ℚ) / (b : ℚ)⌋ ∧ a - b * ⌊(a : ℚ) / (b : ℚ)⌋ ≤ 0 := by
  have hbq : (b : ℚ) < 0 := by exact_mod_cast hb
  have hbne : (b : ℚ) ≠ 0 := ne_of_lt hbq
  have h1 : ((⌊(a : ℚ) / (b : ℚ)⌋ : ℤ) : ℚ) ≤ (a : ℚ) / (b : ℚ) := Int.floor_le _
  have h2 : (a : ℚ) / (b : ℚ) < (⌊(a : ℚ) / (b : ℚ)⌋ : ℤ) + 1 := Int.lt_floor_add_one _
  have hm : (b : ℚ) * ((a : ℚ) / (b : ℚ)) = (a : ℚ) := by
    field_simp
  constructor
  · have h5 : (b : ℚ) * (((⌊(a : ℚ) / (b : ℚ)⌋ : ℤ) : ℚ) + 1) < (a : ℚ) := by
      calc (b : ℚ) * (((⌊(a : ℚ) / (b : ℚ)⌋ : ℤ) : ℚ) + 1)
          < (b : ℚ) * ((a : ℚ) / (b : ℚ)) := by
            exact mul_lt_mul_of_neg_left h2 hbq
        _ = (a : ℚ) := hm
    have h6 : (b : ℚ) < (a : ℚ) - (b : ℚ) * ((⌊(a : ℚ) / (b : ℚ)⌋ : ℤ) : ℚ) := by
      linarith
    exact_mod_cast h6
  · have h3 : (a : ℚ) ≤ (b : ℚ) * ((⌊(a : ℚ) / (b : ℚ)⌋ : ℤ) : ℚ) := by
      calc (a : ℚ) = (b : ℚ) * ((a : ℚ) / (b : ℚ)) := hm.symm
        _ ≤ (b : ℚ) * ((⌊(a : ℚ) / (b : ℚ)⌋ : ℤ) : ℚ) := by
            exact mul_le_mul_of_nonpos_left h1 (le_of_lt hbq)
    have h4 : (a : ℚ) - (b : ℚ) * ((⌊(a : ℚ) / (b : ℚ)⌋ : ℤ) : ℚ) ≤ 0 := by
      linarith
    exact_mod_cast h4

/-- Claim C1: an input whose tree contains a construct outside the
arithmetic grammar (assignment cannot even be parsed in `eval` mode;
attribute access, subscripting, string or list literals, an identifier
not in the registry, a call to a target not in the registry) makes
`_eval` return a typed error and never a value; since the embedded walk
performs, by construction, no operation beyond numeric arithmetic and
the fixed registry functions, nothing else is ever executed.  The
string-level conjuncts instantiate the unregistered-identifier and
unregistered-call cases end to end through `evaluate`. -/
theorem claim_c1_safety :
    (∀ t : Ast, outsideGrammar t = true → ∃ e, evalNode t = .error e) ∧
    evaluate (r"foo") = .error (.ValueError (r"Unknown identifier")) ∧
    evaluate (r"foo(1)") = .error (.ValueError (r"Function not allowed")) ∧
    evalNode (.attrAccess (.name (r"x")) (r"y")) =
      .error (.ValueError (r"Disallowed expression")) ∧
    evalNode (.subscript (.name (r"x")) (.constant (.intC 0))) =
      .error (.ValueError (r"Disallowed expression")) ∧
    evalNode (.constant (.strC (r"abc"))) =
      .error (.ValueError (r"Invalid constant")) ∧
    evalNode (.listLit .nil) = .error (.ValueError (r"Invalid expression")) :=
  ⟨outsideGrammar_err, rfl, rfl, rfl, rfl, rfl, rfl⟩

theorem claim_c1_safety_witness :
    outsideGrammar (.attrAccess (.name (r"a")) (r"b")) = true ∧
    (∃ e, evalNode (.attrAccess (.name (r"a")) (r"b")) = .error e) :=
  ⟨rfl, claim_c1_safety.1 (.attrAccess (.name (r"a")) (r"b")) rfl⟩

/-- Claim C2, counterexample: the claim says every failure is one of the
typed error kinds of the spec's error taxonomy, explicitly including
calls whose target is a registered constant — but `evaluate("pi(1)")`
raises `TypeError` (the registry stores the float `math.pi`, which is not
callable), and `TypeError` is outside the taxonomy of spec section 7. -/
theorem claim_c2_counterexample :
    evaluate (r"pi(1)") = .error .TypeError ∧
    inSpecErrorTaxonomy .TypeError = false :=
  ⟨rfl, rfl⟩

/-- Claim C2 (amended): for every input string, `evaluate` either returns
a value or raises a typed, catchable Python exception — `ValueError`,
`ZeroDivisionError`, or `TypeError` — so it never crashes the host
process; but arity mismatches and calls whose target is a registered
constant surface as `TypeError`, which is outside the spec's error
taxonomy (and a bare registered function name returns a function object
rather than a number). -/
theorem claim_c2_total (s : String) :
    (∃ v, evaluate s = .ok v) ∨
    (∃ m, evaluate s = .error (.ValueError m)) ∨
    evaluate s = .error .ZeroDivisionError ∨
    evaluate s = .error .TypeError := by
  cases h : evaluate s with
  | ok v => exact Or.inl ⟨v, rfl⟩
  | error e =>
    cases e with
    | ValueError m => exact Or.inr (Or.inl ⟨m, rfl⟩)
    | ZeroDivisionError => exact Or.inr (Or.inr (Or.inl rfl))
    | TypeError => exact Or.inr (Or.inr (Or.inr rfl))
    | SyntaxError => exact absurd h (evaluate_ns s)

/-- Claim C3: for evaluated numeric operands `l` and `r` of `**`, the
guard of lines 117-119 fires first — `ValueError('Exponent too large')`
whenever `abs(l) > 1e6` or `abs(r) > 10` — and otherwise the branch
computes `l ** r`; concretely, `evaluate("2**10") = 1024` and
`evaluate("2**11")` is the exponent-too-large error.  (`qAbs` is proved
to be the absolute value.) -/
theorem claim_c3_pow_guard (l r : Val) (x y : ℚ)
    (hx : l.toRat? = some x) (hy : r.toRat? = some y) :
    (∀ q : ℚ, qAbs q = |q|) ∧
    (1000000 < qAbs x ∨ 10 < qAbs y →
      applyBinOp .pow l r = .error (.ValueError (r"Exponent too large"))) ∧
    (¬(1000000 < qAbs x ∨ 10 < qAbs y) → applyBinOp .pow l r = pyPow l r) ∧
    evaluate (r"2**10") = .ok (.int 1024) ∧
    evaluate (r"2**11") = .error (.ValueError (r"Exponent too large")) := by
  refine ⟨qAbs_eq, ?_, ?_, rfl, rfl⟩
  · intro h
    simp only [applyBinOp, hx, hy]
    rcases h with h | h
    · rw [if_pos h]
    · by_cases h1 : 1000000 < qAbs x
      · rw [if_pos h1]
      · rw [if_neg h1, if_pos h]
  · intro h
    push_neg at h
    obtain ⟨h1, h2⟩ := h
    simp only [applyBinOp, hx, hy]
    rw [if_neg (not_lt.mpr h1), if_neg (not_lt.mpr h2)]

theorem claim_c3_pow_guard_witness :
    applyBinOp .pow (.int 2) (.int 11) =
      .error (.ValueError (r"Exponent too large")) :=
  ((claim_c3_pow_guard (.int 2) (.int 11) 2 11 (by decide) (by decide)).2).1
    (by decide)

/-- Claim C4: `//` on integers is the floor of the exact quotient
(toward negative infinity, never truncation) and `%` is the matching
remainder `a - b * ⌊a/b⌋`, whose sign follows the divisor: for `b > 0`
the remainder lies in `[0, b)` and for `b < 0` in `(b, 0]`; concretely
`evaluate("-7 // 2") = -4` and `evaluate("-7 % 2") = 1`. -/
theorem claim_c4_floor_semantics :
    (∀ a b : ℤ, b ≠ 0 →
      applyBinOp .floorDiv (.int a) (.int b) = .ok (.int ⌊(a : ℚ) / (b : ℚ)⌋)) ∧
    (∀ a b : ℤ, b ≠ 0 →
      applyBinOp .mod (.int a) (.int b) =
        .ok (.int (a - b * ⌊(a : ℚ) / (b : ℚ)⌋))) ∧
    (∀ a b : ℤ, 0 < b →
      0 ≤ a - b * ⌊(a : ℚ) / (b : ℚ)⌋ ∧ a - b * ⌊(a : ℚ) / (b : ℚ)⌋ < b) ∧
    (∀ a b : ℤ, b < 0 →
      b < a - b * ⌊(a : ℚ) / (b : ℚ)⌋ ∧ a - b * ⌊(a : ℚ) / (b : ℚ)⌋ ≤ 0) ∧
    evaluate (r"-7 // 2") = .ok (.int (-4)) ∧
    evaluate (r"-7 % 2") = .ok (.int 1) := by
  refine ⟨?_, ?_, floor_mod_bounds_pos, floor_mod_bounds_neg, rfl, rfl⟩
  · intro a b hb
    show pyFloorDiv (.int a) (.int b) = _
    exact pyFloorDiv_int a b hb
  · intro a b hb
    show pyMod (.int a) (.int b) = _
    exact pyMod_int a b hb

theorem claim_c4_floor_semantics_witness :
    applyBinOp .floorDiv (.int (-7)) (.int 2) =
      .ok (.int ⌊((-7 : ℤ) : ℚ) / ((2 : ℤ) : ℚ)⌋) :=
  claim_c4_floor_semantics.1 (-7) 2 (by decide)

/-- Claim C5, counterexample: the claim says `evaluate("")` returns
`SyntaxError`, but line 77 of `main.py` catches the parser's
`SyntaxError` and re-raises `ValueError('Invalid expression')` — a
different exception class. -/
theorem claim_c5_counterexample :
    evaluate (r"") = .error (.ValueError (r"Invalid expression")) ∧
    EvalErr.ValueError (r"Invalid expression") ≠ EvalErr.SyntaxError :=
  ⟨rfl, by decide⟩

/-- Claim C5 (amended): each failure mode the evaluator detects is
reported as `ValueError` with a message naming the mode — `'Invalid
expression'` for malformed input, `'Disallowed expression'` for a node
outside the allow-list, `'Unknown identifier'`, `'Function not
allowed'` — while division by zero surfaces as the builtin
`ZeroDivisionError`; `SyntaxError` itself never escapes (it is caught
and downgraded at line 77), so `evaluate("")`, `evaluate("(1+2")` and
`evaluate("1++")` all return `ValueError('Invalid expression')`, and
that same kind is shared with the tuple/list catch-all of line 135. -/
theorem claim_c5_errors :
    evaluate (r"") = .error (.ValueError (r"Invalid expression")) ∧
    evaluate (r"(1+2") = .error (.ValueError (r"Invalid expression")) ∧
    evaluate (r"1++") = .error (.ValueError (r"Invalid expression")) ∧
    (∀ (s : String) (e : EvalErr), evaluate s = .error e → e ≠ .SyntaxError) ∧
    evalNode (.attrAccess (.name (r"a")) (r"b")) =
      .error (.ValueError (r"Disallowed expression")) ∧
    evalNode (.name (r"bar")) = .error (.ValueError (r"Unknown identifier")) ∧
    evalNode (.call (.name (r"bar")) .nil) =
      .error (.ValueError (r"Function not allowed")) ∧
    evaluate (r"1/0") = .error .ZeroDivisionError ∧
    evalNode (.tupleLit .nil) = .error (.ValueError (r"Invalid expression")) :=
  ⟨rfl, rfl, rfl,
   fun s e h hc => evaluate_ns s (by rw [hc] at h; exact h),
   rfl, rfl, rfl, rfl, rfl⟩

theorem claim_c5_errors_witness :
    EvalErr.ValueError (r"Invalid expression") ≠ EvalErr.SyntaxError :=
  claim_c5_errors.2.2.2.1 (r"") (.ValueError (r"Invalid expression")) rfl

/-- Claim C6: the public entry point sanitizes before parsing, so every
string evaluates identically to its sanitized (ASCII) form — `sanitize`
is idempotent, hence `evaluate s = evaluate (sanitize s)` for all `s` —
and concretely `evaluate("4×5") = evaluate("4*5") = 20`, with the
division and minus glyphs behaving likewise. -/
theorem claim_c6_sanitizer :
    (∀ s : String, evaluate s = evaluate (sanitize s)) ∧
    sanitize (r"4×5") = (r"4*5") ∧
    evaluate (r"4×5") = .ok (.int 20) ∧
    evaluate (r"4*5") = .ok (.int 20) ∧
    sanitize (r"9÷2") = (r"9/2") ∧
    evaluate (r"9÷2") = evaluate (r"9/2") ∧
    evaluate (r"9÷2") = .ok (.float (Rat.divInt 9 2)) ∧
    sanitize (r"7−2") = (r"7-2") ∧
    evaluate (r"7−2") = evaluate (r"7-2") ∧
    evaluate (r"7−2") = .ok (.int 5) := by
  refine ⟨?_, rfl, rfl, rfl, rfl, rfl, rfl, rfl, rfl, rfl⟩
  intro s
  unfold evaluate
  rw [sanitize_idem]

/-- Claim C7, counterexample: `sqrt` is registered, yet evaluating the
bare identifier `sqrt` returns the registry's function object — not any
"registered constant's fixed value" (it is not numeric) and not an
`UnknownIdentifierError` either: the single mixed registry makes the
`ast.Name` branch (lines 130-133) return function objects too. -/
theorem claim_c7_counterexample :
    evaluate (r"sqrt") = .ok (.builtin (r"sqrt")) ∧
    Val.isNumeric (.builtin (r"sqrt")) = false ∧
    isRegistered (r"sqrt") = true :=
  ⟨rfl, rfl, rfl⟩

/-- Claim C7 (amended): the registry holds exactly the names `pi`, `e`,
`sqrt`, `sin`, `cos`, `tan`, `log`, `log10`, `abs`, `round`; an
`ast.Name` node resolves to the registry entry's value whenever the name
is registered — the numeric constant for `pi` and `e`, but the function
object itself for a registered function name — and fails with
`ValueError('Unknown identifier')` exactly for unregistered names. -/
theorem claim_c7_registry :
    (∀ s : String, isRegistered s = true ↔
      s ∈ [(r"pi"), (r"e"), (r"sqrt"), (r"sin"), (r"cos"), (r"tan"),
           (r"log"), (r"log10"), (r"abs"), (r"round")]) ∧
    evalNode (.name (r"pi")) = .ok (.float piRat) ∧
    evalNode (.name (r"e")) = .ok (.float eRat) ∧
    (∀ id : String, isRegistered id = false →
      evalNode (.name id) = .error (.ValueError (r"Unknown identifier"))) ∧
    (∀ (id : String) (f : FnId), lookupName id = some (.fn f) →
      evalNode (.name id) = .ok (.builtin id)) := by
  refine ⟨isRegistered_iff, rfl, rfl, ?_, ?_⟩
  · intro id h
    cases hlk : lookupName id with
    | none => simp only [evalNode, hlk]
    | some entry =>
      rw [isRegistered, hlk] at h
      simp at h
  · intro id f hlk
    simp only [evalNode, hlk]

theorem claim_c7_registry_witness :
    evalNode (.name (r"zebra")) = .error (.ValueError (r"Unknown identifier")) :=
  claim_c7_registry.2.2.2.1 (r"zebra") (by decide)

/-- Claim C8: a division whose right operand is exactly zero raises
`ZeroDivisionError` — which IS an `ArithmeticError` in Python's class
hierarchy — rather than returning a value; concretely
`evaluate("10/0")` is that error. -/
theorem claim_c8_div_zero :
    (∀ (l r : Val) (x y : ℚ), l.toRat? = some x → r.toRat? = some y → y = 0 →
      applyBinOp .div l r = .error .ZeroDivisionError) ∧
    pyExcIsArithmeticError .ZeroDivisionError = true ∧
    evaluate (r"10/0") = .error .ZeroDivisionError := by
  refine ⟨?_, rfl, rfl⟩
  intro l r x y hx hy hy0
  show pyDiv l r = _
  simp only [pyDiv, hx, hy]
  rw [if_pos hy0]

theorem claim_c8_div_zero_witness :
    applyBinOp .div (.int 10) (.int 0) = .error .ZeroDivisionError :=
  claim_c8_div_zero.1 (.int 10) (.int 0) 10 0 (by decide) (by decide) rfl

/-- Claim C9, counterexample: the claim says arity mismatches of
registered functions surface as `ArithmeticError`, but
`evaluate("sqrt(1,2)")` raises `TypeError`, which is not an
`ArithmeticError` in Python's exception hierarchy (and the domain error
of `sqrt(-1)` is a `ValueError`, not an `ArithmeticError`, either). -/
theorem claim_c9_counterexample :
    evaluate (r"sqrt(1,2)") = .error .TypeError ∧
    pyExcIsArithmeticError .TypeError = false :=
  ⟨rfl, rfl⟩

/-- Claim C9 (amended): a call to a name not present in the registry
fails with `ValueError('Function not allowed')` before any argument is
evaluated; domain errors of registered functions surface as
`ValueError('math domain error')`; arity mismatches and calls whose
target is a registered constant raise `TypeError`; concretely
`evaluate("sqrt(16)") = 4.0` and `evaluate("sqrt(-1)")` is the domain
`ValueError`. -/
theorem claim_c9_calls :
    (∀ (id : String) (args : AstList), isRegistered id = false →
      evalNode (.call (.name id) args) =
        .error (.ValueError (r"Function not allowed"))) ∧
    evaluate (r"sqrt(16)") = .ok (.float 4) ∧
    evaluate (r"sqrt(-1)") = .error (.ValueError (r"math domain error")) ∧
    evaluate (r"log(0)") = .error (.ValueError (r"math domain error")) ∧
    evaluate (r"sin()") = .error .TypeError ∧
    evaluate (r"e(1)") = .error .TypeError := by
  refine ⟨?_, rfl, rfl, rfl, rfl, rfl⟩
  intro id args h
  cases hlk : lookupName id with
  | none => exact call_unreg id args hlk
  | some entry =>
    rw [isRegistered, hlk] at h
    simp at h

theorem claim_c9_calls_witness :
    evalNode (.call (.name (r"qq")) .nil) =
      .error (.ValueError (r"Function not allowed")) :=
  claim_c9_calls.1 (r"qq") .nil (by decide)

/-- Claim C10: the literal check of lines 86-87 accepts any
`isinstance(value, (int, float))` constant, and Python's booleans are
ints, so `evaluate("True")` and `evaluate("False")` succeed, returning
the booleans whose numeric values are 1 and 0 (arithmetic treats them as
those ints), instead of failing with any error. -/
theorem claim_c10_bool_literals :
    evaluate (r"True") = .ok (.bool true) ∧
    evaluate (r"False") = .ok (.bool false) ∧
    (Val.bool true).toRat? = some 1 ∧
    (Val.bool false).toRat? = some 0 ∧
    pyAdd (.bool true) (.int 1) = .ok (.int 2) :=
  ⟨rfl, rfl, rfl, rfl, rfl⟩
